import Mathlib

/-!
Shallow embedding of the URL-shortener service in `main.py`.

Modelling conventions:
* Timestamps are integers counting seconds of UTC time, so that
  `timedelta(minutes=v)` becomes `60 * v`; `datetime.utcnow()` becomes an
  explicit `now : Int` parameter threaded through each handler.
* `datetime.isoformat()` (a Python standard-library serialization, not code of
  this repository) is modelled by the abstract injective rendering `isoformat`.
* The global dict `urls` becomes an explicit association list `Registry`
  threaded through the handlers; Python dict membership, indexing and
  assignment become `Registry.find` and `Registry.set`.
* `random.choices(alphabet, k=5)` is modelled by a `seed : Nat → Nat`
  parameter: draw `i` picks the alphabet character at index `seed i` modulo
  the alphabet size.
* `raise HTTPException(...)` becomes `Except.error`; since a raised exception
  aborts the handler before any mutation, the run wrappers (`runCreate`,
  `runRedirect`) return the unchanged registry in the error case.
-/

namespace UrlShortener

/-- Entry of a record's click log: `redirect_url` appends a dict with an
ISO-timestamp string, a referrer string and the client host (`"ip"`). -/
structure ClickEvent where
  timestamp : String
  referrer : String
  ip : String
deriving Repr, DecidableEq

/-- Value stored in the `urls` dict: `{"url": ..., "expiry": ..., "clicks": [...]}`. -/
structure LinkRecord where
  url : String
  expiry : Int
  clicks : List ClickEvent
deriving Repr, DecidableEq

/-- The in-memory store `urls = {}`: a mapping from shortcode to `LinkRecord`,
modelled as an association list in insertion order. -/
abbrev Registry := List (String × LinkRecord)

/-- Dict lookup `urls[shortcode]` (and membership `shortcode in urls` via
`Option.isSome`). -/
def Registry.find : Registry → String → Option LinkRecord
  | [], _ => none
  | (k, v) :: rest, code => if k = code then some v else Registry.find rest code

/-- Dict assignment `urls[shortcode] = record`: replaces the binding in place
if the key is present, otherwise appends it. -/
def Registry.set : Registry → String → LinkRecord → Registry
  | [], code, r => [(code, r)]
  | (k, v) :: rest, code, r =>
      if k = code then (code, r) :: rest else (k, v) :: Registry.set rest code r

/-- `HTTPException(status_code=..., detail=...)`. -/
structure HTTPError where
  statusCode : Nat
  detail : String
deriving Repr, DecidableEq

/-- Request body model `UrlRequest(BaseModel)`: `url: str`, `validity: int = 30`,
`shortcode: str = None`. -/
structure UrlRequest where
  url : String
  validity : Int := 30
  shortcode : Option String := none
deriving Repr, DecidableEq

/-- Response model `UrlResponse(BaseModel)`: `shortLink: str`, `expiry: str`. -/
structure UrlResponse where
  shortLink : String
  expiry : String
deriving Repr, DecidableEq

/-- The parts of the FastAPI `Request` object the handlers read:
`str(request.base_url)`, `request.headers.get("referer")`, `request.client.host`. -/
structure RequestCtx where
  baseUrl : String
  referer : Option String
  clientHost : String
deriving Repr, DecidableEq

/-- Body of the `stats` response dict. -/
structure StatsResponse where
  url : String
  expiry : String
  total_clicks : Nat
  click_data : List ClickEvent
deriving Repr, DecidableEq

/-- Models Python's `datetime.isoformat()`: an injective rendering of a
timestamp to a string. The concrete ISO-8601 digit layout is a standard-library
concern outside this repository; only injectivity of the rendering matters for
the handlers' observable behavior, so the decimal rendering stands in for it. -/
def isoformat (t : Int) : String := toString t

/-- Python's `str.rstrip("/")`: drop all trailing slash characters, as in
`host = str(request.base_url).rstrip("/")`. -/
def rstripSlash (s : String) : String :=
  String.mk ((s.toList.reverse.dropWhile (fun c => c = '/')).reverse)

/-- `string.ascii_letters + string.digits`: the 62-symbol alphabet shortcodes
are drawn from. -/
def alphabetChars : List Char :=
  ("abcdefghijklmnopqrstuvwxyzABCDEFGHIJKLMNOPQRSTUVWXYZ0123456789").toList

/-- `generate_shortcode(length=5)`: `''.join(random.choices(string.ascii_letters
+ string.digits, k=length))`, with the random draws supplied by `seed`. -/
def generate_shortcode (seed : Nat → Nat) (length : Nat := 5) : String :=
  String.mk ((List.range length).map
    (fun i => alphabetChars.getD (seed i % alphabetChars.length) 'a'))

/-- The line `shortcode = data.shortcode or generate_shortcode()`: Python `or`
falls through on falsy values, so both `None` and the empty string trigger
generation. -/
def chosenShortcode (data : UrlRequest) (seed : Nat → Nat) : String :=
  match data.shortcode with
  | none => generate_shortcode seed
  | some s => if s = "" then generate_shortcode seed else s

/-- Handler `create_short_url` (`POST /shorturls`). On success it returns the
response body together with the updated registry. -/
def create_short_url (data : UrlRequest) (request : RequestCtx) (now : Int)
    (seed : Nat → Nat) (urls : Registry) :
    Except HTTPError (UrlResponse × Registry) :=
  let shortcode := chosenShortcode data seed
  if (Registry.find urls shortcode).isSome then
    .error ⟨400, "Shortcode already exists"⟩
  else
    let expiry := now + 60 * data.validity
    let urls2 := Registry.set urls shortcode ⟨data.url, expiry, []⟩
    let host := rstripSlash request.baseUrl
    .ok (⟨host ++ "/" ++ shortcode, isoformat expiry⟩, urls2)

/-- Handler `redirect_url` (`GET /\x7bshortcode\x7d`). On success it returns
the redirect target (the `"redirect_to"` field of the response dict) together
with the updated registry; the appended click dict uses a second
`datetime.utcnow()` call, modelled as the same instant `now`. -/
def redirect_url (shortcode : String) (request : RequestCtx) (now : Int)
    (urls : Registry) : Except HTTPError (String × Registry) :=
  match Registry.find urls shortcode with
  | none => .error ⟨404, "Shortcode not found"⟩
  | some entry =>
    if entry.expiry < now then
      .error ⟨410, "Link expired"⟩
    else
      let click : ClickEvent :=
        ⟨isoformat now, request.referer.getD "unknown", request.clientHost⟩
      .ok (entry.url,
        Registry.set urls shortcode { entry with clicks := entry.clicks ++ [click] })

/-- Handler `stats` (`GET /shorturls/\x7bshortcode\x7d`). It performs no time
comparison at all, so it takes no `now` parameter. -/
def stats (shortcode : String) (urls : Registry) : Except HTTPError StatsResponse :=
  match Registry.find urls shortcode with
  | none => .error ⟨404, "Shortcode not found"⟩
  | some entry =>
    .ok ⟨entry.url, isoformat entry.expiry, entry.clicks.length, entry.clicks⟩

/-- State-level semantics of one `POST /shorturls` request: a raised
`HTTPException` aborts the handler before any mutation, leaving the dict
unchanged. -/
def runCreate (data : UrlRequest) (request : RequestCtx) (now : Int)
    (seed : Nat → Nat) (urls : Registry) : Except HTTPError UrlResponse × Registry :=
  match create_short_url data request now seed urls with
  | .ok (r, u) => (.ok r, u)
  | .error e => (.error e, urls)

/-- State-level semantics of one `GET /\x7bshortcode\x7d` request. -/
def runRedirect (shortcode : String) (request : RequestCtx) (now : Int)
    (urls : Registry) : Except HTTPError String × Registry :=
  match redirect_url shortcode request now urls with
  | .ok (r, u) => (.ok r, u)
  | .error e => (.error e, urls)

/-- Iterate `runRedirect` for one shortcode over a list of (request, time)
pairs, keeping the resulting registry. -/
def resolveN (code : String) (reqs : List (RequestCtx × Int)) (urls : Registry) :
    Registry :=
  reqs.foldl (fun u p => (runRedirect code p.1 p.2 u).2) urls

/-- One API call, for stating whole-trace invariants. -/
inductive Op where
  | create (data : UrlRequest) (request : RequestCtx) (now : Int) (seed : Nat → Nat)
  | resolve (code : String) (request : RequestCtx) (now : Int)
  | getStats (code : String)

/-- Effect of one API call on the registry (`stats` reads but never writes). -/
def step (urls : Registry) : Op → Registry
  | .create d rq t s => (runCreate d rq t s urls).2
  | .resolve c rq t => (runRedirect c rq t urls).2
  | .getStats _ => urls

/-- Effect of a sequence of API calls on the registry. -/
def run (urls : Registry) (ops : List Op) : Registry := ops.foldl step urls

/-- Registry evolution invariant: every mapped shortcode stays mapped to a
record with the same target and expiry whose click log has only been extended
at the tail. -/
def preserves (u u2 : Registry) : Prop :=
  ∀ code r, Registry.find u code = some r →
    ∃ r2, Registry.find u2 code = some r2 ∧ r2.url = r.url ∧ r2.expiry = r.expiry ∧
      ∃ more, r2.clicks = r.clicks ++ more

/-! Basic lemmas about the registry operations. -/

theorem find_set_self (u : Registry) (k : String) (v : LinkRecord) :
    Registry.find (Registry.set u k v) k = some v := by
  induction u with
  | nil => simp [Registry.set, Registry.find]
  | cons hd tl ih =>
    obtain ⟨k2, v2⟩ := hd
    by_cases h : k2 = k
    · simp [Registry.set, Registry.find, h]
    · simp [Registry.set, Registry.find, h, ih]

theorem find_set_ne (u : Registry) (k k2 : String) (v : LinkRecord) (h : k2 ≠ k) :
    Registry.find (Registry.set u k v) k2 = Registry.find u k2 := by
  have hk : ¬ k = k2 := Ne.symm h
  induction u with
  | nil => simp [Registry.set, Registry.find, hk]
  | cons hd tl ih =>
    obtain ⟨k3, v3⟩ := hd
    by_cases h3 : k3 = k
    · simp [Registry.set, Registry.find, h3, hk]
    · simp [Registry.set, Registry.find, h3, ih]

/-- Effect of one successful redirect on the registry, in closed form. -/
theorem runRedirect_ok (code : String) (request : RequestCtx) (now : Int)
    (urls : Registry) (r : LinkRecord)
    (hfind : Registry.find urls code = some r) (hlive : ¬ r.expiry < now) :
    runRedirect code request now urls =
      (.ok r.url,
        Registry.set urls code { r with clicks := r.clicks ++
          [⟨isoformat now, request.referer.getD "unknown", request.clientHost⟩] }) := by
  simp [runRedirect, redirect_url, hfind, hlive]

/-- Iterated successful redirects extend the click log by exactly one event per
call and change nothing else about the record. -/
theorem resolveN_find (code : String) :
    ∀ (reqs : List (RequestCtx × Int)) (urls : Registry) (r : LinkRecord),
      Registry.find urls code = some r →
      (∀ p ∈ reqs, ¬ r.expiry < p.2) →
      ∃ more, Registry.find (resolveN code reqs urls) code =
          some { r with clicks := r.clicks ++ more } ∧ more.length = reqs.length := by
  intro reqs
  induction reqs with
  | nil =>
    intro urls r h _
    exact ⟨[], by simpa [resolveN] using h, rfl⟩
  | cons p rest ih =>
    intro urls r h hall
    have hp : ¬ r.expiry < p.2 := hall p (by simp)
    have hstep : resolveN code (p :: rest) urls =
        resolveN code rest (Registry.set urls code { r with clicks := r.clicks ++
          [⟨isoformat p.2, p.1.referer.getD "unknown", p.1.clientHost⟩] }) := by
      simp [resolveN, runRedirect_ok code p.1 p.2 urls r h hp]
    have hfind2 := find_set_self urls code { r with clicks := r.clicks ++
      [⟨isoformat p.2, p.1.referer.getD "unknown", p.1.clientHost⟩] }
    obtain ⟨more, hm, hl⟩ := ih _ _ hfind2 (fun q hq => hall q (by simp [hq]))
    refine ⟨⟨isoformat p.2, p.1.referer.getD "unknown", p.1.clientHost⟩ :: more, ?_, ?_⟩
    · rw [hstep, hm]
      simp
    · simp [hl]

/-- C1: a create request whose resolved shortcode already exists fails with the
duplicate-shortcode error (HTTP 400, detail "Shortcode already exists") and
leaves the registry — in particular the stored record for that shortcode —
completely unchanged, inserting nothing. -/
theorem create_duplicate_rejected (data : UrlRequest) (request : RequestCtx)
    (now : Int) (seed : Nat → Nat) (urls : Registry) (r : LinkRecord)
    (h : Registry.find urls (chosenShortcode data seed) = some r) :
    runCreate data request now seed urls =
      (.error ⟨400, "Shortcode already exists"⟩, urls) := by
  simp [runCreate, create_short_url, h]

theorem create_duplicate_rejected_witness :
    runCreate ⟨"https://b.com", 30, some "abc"⟩ ⟨"http://h/", none, "ip"⟩ 0
        (fun _ => 0) [("abc", ⟨"https://a.com", 100, []⟩)] =
      (.error ⟨400, "Shortcode already exists"⟩,
        [("abc", ⟨"https://a.com", 100, []⟩)]) :=
  create_duplicate_rejected ⟨"https://b.com", 30, some "abc"⟩ ⟨"http://h/", none, "ip"⟩
    0 (fun _ => 0) [("abc", ⟨"https://a.com", 100, []⟩)] ⟨"https://a.com", 100, []⟩ rfl

/-- C2: resolving a stored shortcode at a time not strictly after its expiry
succeeds, returns the stored target URL, and appends exactly one click event
(current timestamp, referrer defaulting to "unknown", client address); hence
iterating N such successful resolves grows the click count by exactly N. -/
theorem resolve_success_appends_click (code : String) (request : RequestCtx)
    (now : Int) (urls : Registry) (r : LinkRecord)
    (hfind : Registry.find urls code = some r) (hlive : ¬ r.expiry < now) :
    runRedirect code request now urls =
      (.ok r.url,
        Registry.set urls code { r with clicks := r.clicks ++
          [⟨isoformat now, request.referer.getD "unknown", request.clientHost⟩] }) ∧
    ∀ reqs : List (RequestCtx × Int), (∀ p ∈ reqs, ¬ r.expiry < p.2) →
      Option.map (fun r2 => r2.clicks.length)
          (Registry.find (resolveN code reqs urls) code) =
        some (r.clicks.length + reqs.length) := by
  refine ⟨runRedirect_ok code request now urls r hfind hlive, ?_⟩
  intro reqs hall
  obtain ⟨more, hm, hl⟩ := resolveN_find code reqs urls r hfind hall
  simp [hm, hl]

theorem resolve_success_appends_click_witness :
    (runRedirect "c" ⟨"http://h/", some "ref", "9.9.9.9"⟩ 5
        [("c", ⟨"https://t.example", 100, []⟩)] =
      (.ok "https://t.example",
        [("c", ⟨"https://t.example", 100,
          [⟨isoformat 5, "ref", "9.9.9.9"⟩]⟩)])) ∧
    Option.map (fun r2 => r2.clicks.length)
        (Registry.find (resolveN "c"
          [(⟨"http://h/", some "ref", "9.9.9.9"⟩, 1),
           (⟨"http://h/", none, "8.8.8.8"⟩, 2)]
          [("c", ⟨"https://t.example", 100, []⟩)]) "c") = some 2 := by
  have h := resolve_success_appends_click "c" ⟨"http://h/", some "ref", "9.9.9.9"⟩ 5
    [("c", ⟨"https://t.example", 100, []⟩)] ⟨"https://t.example", 100, []⟩ rfl
    (by decide)
  exact ⟨h.1, h.2 [(⟨"http://h/", some "ref", "9.9.9.9"⟩, 1),
    (⟨"http://h/", none, "8.8.8.8"⟩, 2)] (by decide)⟩

/-- C3: resolving an absent shortcode fails with NotFound (404); resolving a
stored shortcode at a time strictly after its expiry fails with the distinct
error Expired (410) while leaving the registry unchanged (no click is appended
and the entry stays in place), and — since the conclusion quantifies over every
time strictly after the expiry — every future resolve of it fails with Expired
as well. -/
theorem resolve_notfound_and_expired (code : String) (request : RequestCtx)
    (urls : Registry) :
    (Registry.find urls code = none → ∀ now,
      runRedirect code request now urls =
        (.error ⟨404, "Shortcode not found"⟩, urls)) ∧
    (∀ r, Registry.find urls code = some r → ∀ now, r.expiry < now →
      runRedirect code request now urls =
        (.error ⟨410, "Link expired"⟩, urls)) := by
  constructor
  · intro h now
    simp [runRedirect, redirect_url, h]
  · intro r h now hexp
    simp [runRedirect, redirect_url, h, hexp]

theorem resolve_notfound_and_expired_witness :
    (runRedirect "missing" ⟨"http://h/", none, "ip"⟩ 0 [] =
      (.error ⟨404, "Shortcode not found"⟩, [])) ∧
    (runRedirect "b" ⟨"http://h/", none, "ip"⟩ 11
        [("b", ⟨"https://a.com", 10, []⟩)] =
      (.error ⟨410, "Link expired"⟩, [("b", ⟨"https://a.com", 10, []⟩)])) :=
  ⟨(resolve_notfound_and_expired "missing" ⟨"http://h/", none, "ip"⟩ []).1 rfl 0,
   (resolve_notfound_and_expired "b" ⟨"http://h/", none, "ip"⟩
      [("b", ⟨"https://a.com", 10, []⟩)]).2 ⟨"https://a.com", 10, []⟩ rfl 11
      (by decide)⟩

/-- C4: stats on an absent shortcode fails with NotFound (404); on a stored
shortcode it succeeds — `stats` takes no time parameter at all, so no expiry
check can occur — returning the stored target URL, the ISO-rendered expiry, a
total click count equal to the length of the click log, and the click log
itself in stored order; and after any number of further successful resolves the
reported count is the old count plus the number of resolves. -/
theorem stats_fields (code : String) (urls : Registry) :
    (Registry.find urls code = none →
      stats code urls = .error ⟨404, "Shortcode not found"⟩) ∧
    (∀ r, Registry.find urls code = some r →
      stats code urls = .ok ⟨r.url, isoformat r.expiry, r.clicks.length, r.clicks⟩) ∧
    (∀ r reqs, Registry.find urls code = some r →
      (∀ p ∈ reqs, ¬ r.expiry < p.2) →
      Except.map (fun s => s.total_clicks) (stats code (resolveN code reqs urls)) =
        .ok (r.clicks.length + reqs.length)) := by
  refine ⟨?_, ?_, ?_⟩
  · intro h
    simp [stats, h]
  · intro r h
    simp [stats, h]
  · intro r reqs h hall
    obtain ⟨more, hm, hl⟩ := resolveN_find code reqs urls r h hall
    simp [stats, hm, hl, Except.map]

theorem stats_fields_witness :
    (stats "missing" [] = .error ⟨404, "Shortcode not found"⟩) ∧
    (stats "b" [("b", ⟨"https://a.com", 10, [⟨"1", "unknown", "ip"⟩]⟩)] =
      .ok ⟨"https://a.com", isoformat 10, 1, [⟨"1", "unknown", "ip"⟩]⟩) ∧
    Except.map (fun s => s.total_clicks)
        (stats "b" (resolveN "b" [(⟨"http://h/", none, "ip"⟩, 3)]
          [("b", ⟨"https://a.com", 10, [⟨"1", "unknown", "ip"⟩]⟩)])) = .ok 2 :=
  ⟨(stats_fields "missing" []).1 rfl,
   (stats_fields "b" [("b", ⟨"https://a.com", 10, [⟨"1", "unknown", "ip"⟩]⟩)]).2.1
      ⟨"https://a.com", 10, [⟨"1", "unknown", "ip"⟩]⟩ rfl,
   (stats_fields "b" [("b", ⟨"https://a.com", 10, [⟨"1", "unknown", "ip"⟩]⟩)]).2.2
      ⟨"https://a.com", 10, [⟨"1", "unknown", "ip"⟩]⟩
      [(⟨"http://h/", none, "ip"⟩, 3)] rfl (by decide)⟩

/-- C5: round-trip — creating with an explicit (nonempty) shortcode that is not
yet taken succeeds, the returned short link is the rstripped base address
concatenated with "/" and the shortcode, and a subsequent resolve of that
shortcode at any time not strictly after the expiry returns the original target
URL unchanged. -/
theorem create_resolve_roundtrip (data : UrlRequest) (request request2 : RequestCtx)
    (now now2 : Int) (seed : Nat → Nat) (urls : Registry) (c : String)
    (hc : data.shortcode = some c) (hne : c ≠ "")
    (habsent : Registry.find urls c = none)
    (hlive : ¬ (now + 60 * data.validity) < now2) :
    runCreate data request now seed urls =
      (.ok ⟨rstripSlash request.baseUrl ++ "/" ++ c,
            isoformat (now + 60 * data.validity)⟩,
        Registry.set urls c ⟨data.url, now + 60 * data.validity, []⟩) ∧
    (runRedirect c request2 now2
        (Registry.set urls c ⟨data.url, now + 60 * data.validity, []⟩)).1 =
      .ok data.url := by
  have hcode : chosenShortcode data seed = c := by
    simp [chosenShortcode, hc, hne]
  constructor
  · simp [runCreate, create_short_url, hcode, habsent]
  · rw [runRedirect_ok c request2 now2 _ ⟨data.url, now + 60 * data.validity, []⟩
      (find_set_self urls c ⟨data.url, now + 60 * data.validity, []⟩) hlive]

theorem create_resolve_roundtrip_witness :
    runCreate ⟨"https://t.example", 30, some "abc123"⟩
        ⟨"http://localhost:8000/", none, "ip"⟩ 0 (fun _ => 0) [] =
      (.ok ⟨rstripSlash "http://localhost:8000/" ++ "/" ++ "abc123",
            isoformat (0 + 60 * 30)⟩,
        Registry.set [] "abc123" ⟨"https://t.example", 0 + 60 * 30, []⟩) ∧
    (runRedirect "abc123" ⟨"http://localhost:8000/", some "r", "ip2"⟩ 100
        (Registry.set [] "abc123" ⟨"https://t.example", 0 + 60 * 30, []⟩)).1 =
      .ok "https://t.example" :=
  create_resolve_roundtrip ⟨"https://t.example", 30, some "abc123"⟩
    ⟨"http://localhost:8000/", none, "ip"⟩ ⟨"http://localhost:8000/", some "r", "ip2"⟩
    0 100 (fun _ => 0) [] "abc123" rfl (by decide) rfl (by decide)

/-- C6: a successful create stores expiry = now plus 60·validity seconds (i.e.
validity minutes) with an empty click log and returns the ISO-rendered expiry;
the validity field defaults to 30 when omitted from the request body; negative
validity is accepted — with validity = -1 the create succeeds and any resolve
at or after the creation instant fails with Expired (410). -/
theorem create_expiry_semantics (data : UrlRequest) (request : RequestCtx)
    (now : Int) (seed : Nat → Nat) (urls : Registry)
    (habsent : Registry.find urls (chosenShortcode data seed) = none) :
    runCreate data request now seed urls =
      (.ok ⟨rstripSlash request.baseUrl ++ "/" ++ chosenShortcode data seed,
            isoformat (now + 60 * data.validity)⟩,
        Registry.set urls (chosenShortcode data seed)
          ⟨data.url, now + 60 * data.validity, []⟩) ∧
    (∀ u : String, ({ url := u } : UrlRequest).validity = 30) ∧
    (data.validity = -1 → ∀ now2, now ≤ now2 →
      (runRedirect (chosenShortcode data seed) request now2
          (runCreate data request now seed urls).2).1 =
        .error ⟨410, "Link expired"⟩) := by
  have hcreate : runCreate data request now seed urls =
      (.ok ⟨rstripSlash request.baseUrl ++ "/" ++ chosenShortcode data seed,
            isoformat (now + 60 * data.validity)⟩,
        Registry.set urls (chosenShortcode data seed)
          ⟨data.url, now + 60 * data.validity, []⟩) := by
    simp [runCreate, create_short_url, habsent]
  refine ⟨hcreate, fun u => rfl, ?_⟩
  intro hval now2 h2
  have hfind := find_set_self urls (chosenShortcode data seed)
    ⟨data.url, now + 60 * data.validity, []⟩
  have hexp : (now + 60 * data.validity) < now2 := by
    rw [hval]
    omega
  rw [hcreate]
  simp [runRedirect, redirect_url, hfind, hexp]

theorem create_expiry_semantics_witness :
    (runCreate ⟨"https://a.com", -1, some "neg"⟩ ⟨"http://h/", none, "ip"⟩ 1000
        (fun _ => 0) [] =
      (.ok ⟨rstripSlash "http://h/" ++ "/" ++ chosenShortcode
              ⟨"https://a.com", -1, some "neg"⟩ (fun _ => 0),
            isoformat (1000 + 60 * (-1))⟩,
        Registry.set [] (chosenShortcode ⟨"https://a.com", -1, some "neg"⟩ (fun _ => 0))
          ⟨"https://a.com", 1000 + 60 * (-1), []⟩)) ∧
    (runRedirect (chosenShortcode ⟨"https://a.com", -1, some "neg"⟩ (fun _ => 0))
        ⟨"http://h/", none, "ip"⟩ 1000
        (runCreate ⟨"https://a.com", -1, some "neg"⟩ ⟨"http://h/", none, "ip"⟩ 1000
          (fun _ => 0) []).2).1 =
      .error ⟨410, "Link expired"⟩ := by
  have h := create_expiry_semantics ⟨"https://a.com", -1, some "neg"⟩
    ⟨"http://h/", none, "ip"⟩ 1000 (fun _ => 0) [] rfl
  exact ⟨h.1, h.2.2 rfl 1000 (by decide)⟩

/-- C7 counterexample: a Create call that does supply a desiredShortcode — the
empty string — does not use it verbatim: Python's `or` treats the empty string
as falsy, so a 5-character code is generated instead (here "aaaaa" under the
all-zero random draw), which differs from the supplied shortcode. -/
theorem chosen_shortcode_empty_not_verbatim :
    ({ url := "https://a.com", validity := 30,
       shortcode := some "" } : UrlRequest).shortcode = some "" ∧
    chosenShortcode ⟨"https://a.com", 30, some ""⟩ (fun _ => 0) = "aaaaa" ∧
    "aaaaa" ≠ "" := ⟨rfl, by decide, by decide⟩

/-- C7 (amended): a nonempty desiredShortcode is used verbatim — it is the
code checked against the registry, the key the record is stored under, and the
code embedded in the returned short link; the empty string is the sole
exception, falling back to a generated code. -/
theorem chosen_shortcode_verbatim (data : UrlRequest) (seed : Nat → Nat)
    (c : String) (hc : data.shortcode = some c) (hne : c ≠ "") :
    chosenShortcode data seed = c ∧
    (∀ (request : RequestCtx) (now : Int) (urls : Registry),
      Registry.find urls c = none →
      runCreate data request now seed urls =
        (.ok ⟨rstripSlash request.baseUrl ++ "/" ++ c,
              isoformat (now + 60 * data.validity)⟩,
          Registry.set urls c ⟨data.url, now + 60 * data.validity, []⟩)) ∧
    (∀ (request : RequestCtx) (now : Int) (urls : Registry) (r : LinkRecord),
      Registry.find urls c = some r →
      runCreate data request now seed urls =
        (.error ⟨400, "Shortcode already exists"⟩, urls)) := by
  have hcode : chosenShortcode data seed = c := by
    simp [chosenShortcode, hc, hne]
  refine ⟨hcode, ?_, ?_⟩
  · intro request now urls habsent
    simp [runCreate, create_short_url, hcode, habsent]
  · intro request now urls r hdup
    simp [runCreate, create_short_url, hcode, hdup]

theorem chosen_shortcode_verbatim_witness :
    (chosenShortcode ⟨"https://a.com", 30, some "myCode"⟩ (fun _ => 7) = "myCode") ∧
    runCreate ⟨"https://a.com", 30, some "myCode"⟩ ⟨"http://h/", none, "ip"⟩ 0
        (fun _ => 7) [] =
      (.ok ⟨rstripSlash "http://h/" ++ "/" ++ "myCode", isoformat (0 + 60 * 30)⟩,
        Registry.set [] "myCode" ⟨"https://a.com", 0 + 60 * 30, []⟩) := by
  have h := chosen_shortcode_verbatim ⟨"https://a.com", 30, some "myCode"⟩
    (fun _ => 7) "myCode" rfl (by decide)
  exact ⟨h.1, h.2.1 ⟨"http://h/", none, "ip"⟩ 0 [] rfl⟩

/-- C8: the generated shortcode is always 5 characters long, each drawn from
the 62-symbol alphabet of ASCII letters and digits; and there is no collision
retry — if the single generated code is already present in the registry, the
create is rejected with the same 400 duplicate error as an explicit
collision. -/
theorem generated_shortcode_shape (seed : Nat → Nat) :
    alphabetChars.length = 62 ∧
    (generate_shortcode seed).length = 5 ∧
    (∀ ch ∈ (generate_shortcode seed).toList, ch ∈ alphabetChars) ∧
    (∀ (data : UrlRequest) (request : RequestCtx) (now : Int) (urls : Registry)
        (r : LinkRecord), data.shortcode = none →
      Registry.find urls (generate_shortcode seed) = some r →
      runCreate data request now seed urls =
        (.error ⟨400, "Shortcode already exists"⟩, urls)) := by
  refine ⟨rfl, rfl, ?_, ?_⟩
  · intro ch hch
    simp only [generate_shortcode, String.toList, String.mk, List.mem_map] at hch
    obtain ⟨i, hi, rfl⟩ := hch
    have hlt : seed i % alphabetChars.length < alphabetChars.length :=
      Nat.mod_lt _ (by decide)
    rw [List.getD_eq_getElem alphabetChars 'a' hlt]
    exact List.getElem_mem hlt
  · intro data request now urls r hnone hdup
    have hcode : chosenShortcode data seed = generate_shortcode seed := by
      simp [chosenShortcode, hnone]
    rw [← hcode] at hdup
    simp [runCreate, create_short_url, hdup]

theorem generated_shortcode_shape_witness :
    ((generate_shortcode (fun _ => 0)).length = 5) ∧
    runCreate ⟨"https://a.com", 30, none⟩ ⟨"http://h/", none, "ip"⟩ 0 (fun _ => 0)
        [("aaaaa", ⟨"https://old.com", 9, []⟩)] =
      (.error ⟨400, "Shortcode already exists"⟩,
        [("aaaaa", ⟨"https://old.com", 9, []⟩)]) := by
  have h := generated_shortcode_shape (fun _ => 0)
  exact ⟨h.2.1, h.2.2.2 ⟨"https://a.com", 30, none⟩ ⟨"http://h/", none, "ip"⟩ 0
    [("aaaaa", ⟨"https://old.com", 9, []⟩)] ⟨"https://old.com", 9, []⟩ rfl (by decide)⟩

/-- C10: a Create whose desiredShortcode is the empty string behaves as if no
shortcode was supplied — the generated 5-character code is the one checked and
(on success) stored — and the empty string is never inserted as a registry
key, whatever the outcome. -/
theorem create_empty_shortcode_generates (data : UrlRequest) (request : RequestCtx)
    (now : Int) (seed : Nat → Nat) (urls : Registry)
    (h : data.shortcode = some "") :
    chosenShortcode data seed = generate_shortcode seed ∧
    (generate_shortcode seed).length = 5 ∧
    Registry.find (runCreate data request now seed urls).2 "" =
      Registry.find urls "" ∧
    (Registry.find urls (generate_shortcode seed) = none →
      Registry.find (runCreate data request now seed urls).2
          (generate_shortcode seed) =
        some ⟨data.url, now + 60 * data.validity, []⟩) := by
  have hcode : chosenShortcode data seed = generate_shortcode seed := by
    simp [chosenShortcode, h]
  have hne : ("" : String) ≠ generate_shortcode seed := by
    intro hEq
    have : ("" : String).length = (generate_shortcode seed).length := by rw [hEq]
    simp [generate_shortcode] at this
  refine ⟨hcode, rfl, ?_, ?_⟩
  · by_cases hdup : (Registry.find urls (generate_shortcode seed)).isSome
    · simp [runCreate, create_short_url, hcode, hdup]
    · simp [runCreate, create_short_url, hcode, hdup,
        find_set_ne urls (generate_shortcode seed) "" _ hne]
  · intro habsent
    simp [runCreate, create_short_url, hcode, habsent, find_set_self]

theorem create_empty_shortcode_generates_witness :
    (chosenShortcode ⟨"https://a.com", 30, some ""⟩ (fun _ => 0) =
      generate_shortcode (fun _ => 0)) ∧
    Registry.find (runCreate ⟨"https://a.com", 30, some ""⟩ ⟨"http://h/", none, "ip"⟩
        0 (fun _ => 0) []).2 "" = Registry.find [] "" ∧
    Registry.find (runCreate ⟨"https://a.com", 30, some ""⟩ ⟨"http://h/", none, "ip"⟩
        0 (fun _ => 0) []).2 (generate_shortcode (fun _ => 0)) =
      some ⟨"https://a.com", 0 + 60 * 30, []⟩ := by
  have h := create_empty_shortcode_generates ⟨"https://a.com", 30, some ""⟩
    ⟨"http://h/", none, "ip"⟩ 0 (fun _ => 0) [] rfl
  exact ⟨h.1, h.2.2.1, h.2.2.2 rfl⟩

theorem preserves_refl (u : Registry) : preserves u u := by
  intro code r h
  exact ⟨r, h, rfl, rfl, [], by simp⟩

theorem preserves_trans {u1 u2 u3 : Registry}
    (h12 : preserves u1 u2) (h23 : preserves u2 u3) : preserves u1 u3 := by
  intro code r h
  obtain ⟨r2, hf2, hu2, he2, more2, hc2⟩ := h12 code r h
  obtain ⟨r3, hf3, hu3, he3, more3, hc3⟩ := h23 code r2 hf2
  exact ⟨r3, hf3, by rw [hu3, hu2], by rw [he3, he2],
    more2 ++ more3, by rw [hc3, hc2, List.append_assoc]⟩

/-- Every single API call preserves the registry invariants. -/
theorem step_preserves (urls : Registry) (op : Op) : preserves urls (step urls op) := by
  cases op with
  | getStats c => exact preserves_refl urls
  | create d rq t s =>
    show preserves urls (runCreate d rq t s urls).2
    by_cases hdup : (Registry.find urls (chosenShortcode d s)).isSome
    · have hreg : (runCreate d rq t s urls).2 = urls := by
        simp [runCreate, create_short_url, hdup]
      rw [hreg]
      exact preserves_refl urls
    · have hreg : (runCreate d rq t s urls).2 =
          Registry.set urls (chosenShortcode d s) ⟨d.url, t + 60 * d.validity, []⟩ := by
        simp [runCreate, create_short_url, hdup]
      rw [hreg]
      intro code r h
      have hne : code ≠ chosenShortcode d s := by
        intro hEq
        rw [← hEq, h] at hdup
        exact hdup rfl
      exact ⟨r, by rw [find_set_ne urls _ code _ hne]; exact h, rfl, rfl, [], by simp⟩
  | resolve c rq t =>
    show preserves urls (runRedirect c rq t urls).2
    cases hfind : Registry.find urls c with
    | none =>
      have hreg : (runRedirect c rq t urls).2 = urls := by
        simp [runRedirect, redirect_url, hfind]
      rw [hreg]
      exact preserves_refl urls
    | some entry =>
      by_cases hexp : entry.expiry < t
      · have hreg : (runRedirect c rq t urls).2 = urls := by
          simp [runRedirect, redirect_url, hfind, hexp]
        rw [hreg]
        exact preserves_refl urls
      · have hreg : (runRedirect c rq t urls).2 =
            Registry.set urls c { entry with clicks := entry.clicks ++
              [⟨isoformat t, rq.referer.getD "unknown", rq.clientHost⟩] } := by
          simp [runRedirect, redirect_url, hfind, hexp]
        rw [hreg]
        intro code r h
        by_cases hc : code = c
        · subst hc
          rw [h] at hfind
          cases hfind
          exact ⟨_, find_set_self urls code _, rfl, rfl,
            [⟨isoformat t, rq.referer.getD "unknown", rq.clientHost⟩], rfl⟩
        · exact ⟨r, by rw [find_set_ne urls c code _ hc]; exact h, rfl, rfl, [], by simp⟩

/-- C9: across every sequence of Create / Resolve / GetStats calls, the
registry only evolves monotonically — a shortcode once mapped keeps its record
identity (target and expiry never change, so it is never remapped to a
different record), and its click log only grows at the tail, with no click
removed or mutated after insertion. -/
theorem registry_invariants (urls : Registry) (ops : List Op) :
    preserves urls (run urls ops) := by
  induction ops generalizing urls with
  | nil => exact preserves_refl urls
  | cons op rest ih =>
    exact preserves_trans (step_preserves urls op) (ih (step urls op))

theorem registry_invariants_witness :
    preserves [("b", ⟨"https://a.com", 100, []⟩)]
      (run [("b", ⟨"https://a.com", 100, []⟩)]
        [.resolve "b" ⟨"http://h/", none, "ip"⟩ 5,
         .create ⟨"https://c.com", 30, some "d"⟩ ⟨"http://h/", none, "ip"⟩ 6 (fun _ => 0),
         .getStats "b"]) :=
  registry_invariants [("b", ⟨"https://a.com", 100, []⟩)]
    [.resolve "b" ⟨"http://h/", none, "ip"⟩ 5,
     .create ⟨"https://c.com", 30, some "d"⟩ ⟨"http://h/", none, "ip"⟩ 6 (fun _ => 0),
     .getStats "b"]

end UrlShortener
